import Mathlib

/-!
Verification development for the `alg` package: Linux AF_ALG socket access
to the kernel crypto API. We shallowly embed the Go source: socket and pipe
capabilities become explicit behavior records (mirroring the package's own
`socket` / `pipe` test-double interfaces), machine integers become `Nat`/`Int`,
fallible calls return pairs with `Option` errors, and Go panics become
`Except` errors. Syscall trace events are recorded so that call order and
flag arguments are observable.
-/

namespace Alg

/-- A byte, as stored in a Go byte slice. -/
abbrev Byte := Nat

/-- An OS error code (the `error` values surfaced by the unix package). -/
abbrev Err := Nat

/-- unix.SPLICE_F_MOVE: move pages instead of copying. -/
def SPLICE_F_MOVE : Nat := 1

/-- unix.SPLICE_F_NONBLOCK: do not block on splice I/O. -/
def SPLICE_F_NONBLOCK : Nat := 2

/-- unix.SPLICE_F_MORE: more data will be coming in a subsequent splice. -/
def SPLICE_F_MORE : Nat := 4

/-- unix.MSG_MORE on Linux (0x8000): the caller has more data to send. -/
def MSG_MORE : Nat := 32768

/-- syscall.PROT_READ: pages may be read. -/
def PROT_READ : Nat := 1

/-- syscall.MAP_SHARED. -/
def MAP_SHARED : Nat := 1

/-- The constant `defaultSocketBufferSize = 64 * 1024` from the Linux source. -/
def defaultSocketBufferSize : Nat := 64 * 1024

/-- A syscall event emitted by the zero-copy write path, recording which pipe
index was used and each argument passed to the kernel primitive. -/
inductive WEvent
  | vmspliceCall (pipeIdx : Nat) (b : List Byte) (flags : Nat)
  | spliceCall (pipeIdx : Nat) (outFd : Nat) (size : Nat) (flags : Nat)
  | sendtoCall (b : List Byte) (flags : Nat)
  deriving DecidableEq, Repr

/-- Behavior of one `pipe` capability (the package's own interface for
mocking pipe syscalls): `vmsplice (b, flags)` yields the Go pair `(n, err)`,
and `spliceTo (out, size, flags)` yields `(n64, err)`. -/
structure PipeBehavior where
  vmsplice : List Byte → Nat → Nat × Option Err
  spliceTo : Nat → Nat → Nat → Int × Option Err

/-- Outcome of `(*ihash).Write`: the returned `(n, err)` pair plus the trace
of pipe syscalls issued. -/
structure WriteOutcome where
  n : Nat
  err : Option Err
  events : List WEvent
  deriving DecidableEq, Repr

/-- Embedding of the pipe-relay `(*ihash).Write` (part_001 lines 226-233):
vmsplice the buffer into `pipes[1]` with flags 0; on vmsplice error return
`(n, err)`; otherwise splice `n` bytes from `pipes[0]` into the socket fd
with `SPLICE_F_MOVE|SPLICE_F_MORE`, discarding the splice count, and return
`(n, spliceErr)`. -/
def ihashWrite (pipe0 pipe1 : PipeBehavior) (sfd : Nat) (b : List Byte) :
    WriteOutcome :=
  let v := pipe1.vmsplice b 0
  let ev1 := WEvent.vmspliceCall 1 b 0
  match v.2 with
  | some e => ⟨v.1, some e, [ev1]⟩
  | none =>
    let s := pipe0.spliceTo sfd v.1 (SPLICE_F_MOVE ||| SPLICE_F_MORE)
    ⟨v.1, s.2, [ev1, WEvent.spliceCall 0 sfd v.1 (SPLICE_F_MOVE ||| SPLICE_F_MORE)]⟩

/-- Embedding of the Sendto-based `(*ihash).Write` (alg_linux.go lines
99-102): `err := h.s.Sendto(b, unix.MSG_MORE, h.addr); return len(b), err`.
The socket behavior maps `(p, flags)` to the returned error. -/
def ihashWriteSendto (sendto : List Byte → Nat → Option Err) (b : List Byte) :
    Nat × Option Err :=
  (b.length, sendto b MSG_MORE)

/-- A pipe behavior whose vmsplice accepts one byte fewer than offered and
reports no error, and whose splice always succeeds: a legal behavior of the
underlying primitives (vmsplice may report a short transfer). -/
def shortVmsplicePipe : PipeBehavior :=
  ⟨fun b _ => (b.length - 1, none), fun _ size _ => ((size : Int), none)⟩

/-- A pipe behavior whose primitives always succeed with full counts. -/
def fullPipe : PipeBehavior :=
  ⟨fun b _ => (b.length, none), fun _ size _ => ((size : Int), none)⟩

/-- True when the event is a vmsplice call. -/
def WEvent.isVmsplice : WEvent → Bool
  | .vmspliceCall _ _ _ => true
  | _ => false

/-- A Go runtime panic, identified by its cause. -/
inductive GoPanic
  | indexOutOfRange
  | sumReadFailed (e : Err)
  deriving DecidableEq, Repr

/-- Result of a Go computation that may panic. -/
abbrev GoResult (α : Type) := Except GoPanic α

/-- Embedding of `(*sysPipe).Vmsplice` (part_001 lines 304-315): builds an
iovec whose base is the address of the slice's first element, which is the
expression b[0] and panics with an index-out-of-range runtime error when the
slice is empty; otherwise it issues the vmsplice syscall, whose behavior is
the parameter `vms`. -/
def sysPipeVmsplice (vms : List Byte → Nat → Nat × Option Err)
    (b : List Byte) (flags : Nat) : GoResult (Nat × Option Err) :=
  match b with
  | [] => Except.error GoPanic.indexOutOfRange
  | _ :: _ => Except.ok (vms b flags)

/-- The pipe-relay `(*ihash).Write` with `pipes[1]` implemented by the real
`sysPipe`, so that the panic of `Vmsplice` on an empty slice propagates:
a Write of an empty slice crashes instead of returning an error. -/
def ihashWriteSys (vms : List Byte → Nat → Nat × Option Err)
    (spl : Nat → Nat → Nat → Int × Option Err) (sfd : Nat) (b : List Byte) :
    GoResult (Nat × Option Err) :=
  match sysPipeVmsplice vms b 0 with
  | Except.error m => Except.error m
  | Except.ok (n, some e) => Except.ok (n, some e)
  | Except.ok (n, none) =>
    Except.ok (n, (spl sfd n (SPLICE_F_MOVE ||| SPLICE_F_MORE)).2)

/-- The dynamic shape of the io.Reader handed to `ReadFrom`, as the Go code
inspects it by type assertion: a plain os.File, an io.LimitedReader wrapping
a file (with remaining cap N), an io.LimitedReader wrapping a non-file, or
any other reader. -/
inductive Src
  | file
  | limitedFile (cap : Int)
  | limitedOther (cap : Int)
  | other
  deriving DecidableEq, Repr

/-- An event of the source-transfer path: a sendfile or mmap-splice attempt
(recording the remain argument passed), or a read/write of one chunk inside
the generic buffered copy. -/
inductive RFEvent
  | sendfileTry (remain : Int)
  | spliceTry (remain : Int)
  | readChunk (b : List Byte)
  | writeChunk (b : List Byte)
  deriving DecidableEq, Repr

/-- True when the event is a sendfile or mmap-splice fast-path attempt. -/
def RFEvent.isTry : RFEvent → Bool
  | .sendfileTry _ => true
  | .spliceTry _ => true
  | _ => false

/-- An error returned by io.Copy: either io.ErrShortWrite (a distinguished
sentinel, not an OS error) or an underlying OS error. -/
inductive CopyErr
  | shortWrite
  | io (e : Err)
  deriving DecidableEq, Repr

/-- Embedding of `genericReadFrom` (part_001 lines 323-326), which is
`io.Copy(writerOnly{w}, r)`: the writerOnly wrapper hides any ReadFrom of
the destination, so io.Copy runs its plain read/write loop. The reader's
behavior is the list of chunks its successive successful Reads produce,
then a terminal condition (`none` = EOF ending the copy successfully,
`some e` = a read error returned to the caller). Each chunk is written via
`wb`; a write error stops the copy with that error after counting the
write's reported bytes, and a write reporting a count different from the
chunk length stops it with io.ErrShortWrite. -/
def genericReadFrom (wb : List Byte → Nat × Option Err) :
    List (List Byte) → Option Err → Int → (Int × Option CopyErr) × List RFEvent
  | [], final, acc =>
    match final with
    | none => ((acc, none), [])
    | some e => ((acc, some (CopyErr.io e)), [])
  | c :: cs, final, acc =>
    if c.isEmpty then
      let rest := genericReadFrom wb cs final acc
      (rest.1, RFEvent.readChunk c :: rest.2)
    else
      let w := wb c
      let evs := [RFEvent.readChunk c, RFEvent.writeChunk c]
      match w.2 with
      | some e => ((acc + (w.1 : Int), some (CopyErr.io e)), evs)
      | none =>
        if w.1 ≠ c.length then
          ((acc + (w.1 : Int), some CopyErr.shortWrite), evs)
        else
          let rest := genericReadFrom wb cs final (acc + (w.1 : Int))
          (rest.1, evs ++ rest.2)

/-- Embedding of `(*ihash).ReadFrom` and `readFromLimitedReader` (part_001
lines 110-135). A strategy attempt behavior maps the remain argument to the
Go triple `(written, err, handled)`; `handled = false` routes onward without
surfacing an error, exactly as the source returns `(0, nil, false)`. A plain
file tries sendfile then mmap-splice with the -1 sentinel; a length-capped
file tries the same two with the cap; every remaining case runs the generic
buffered copy. -/
def ihashReadFrom (sfA spA : Int → Int × Option Err × Bool)
    (wb : List Byte → Nat × Option Err) (chunks : List (List Byte))
    (final : Option Err) : Src → (Int × Option CopyErr) × List RFEvent
  | Src.file =>
    let s1 := sfA (-1)
    if s1.2.2 then ((s1.1, s1.2.1.map CopyErr.io), [RFEvent.sendfileTry (-1)])
    else
      let s2 := spA (-1)
      if s2.2.2 then
        ((s2.1, s2.2.1.map CopyErr.io),
         [RFEvent.sendfileTry (-1), RFEvent.spliceTry (-1)])
      else
        let g := genericReadFrom wb chunks final 0
        (g.1, [RFEvent.sendfileTry (-1), RFEvent.spliceTry (-1)] ++ g.2)
  | Src.limitedFile cap =>
    let s1 := sfA cap
    if s1.2.2 then ((s1.1, s1.2.1.map CopyErr.io), [RFEvent.sendfileTry cap])
    else
      let s2 := spA cap
      if s2.2.2 then
        ((s2.1, s2.2.1.map CopyErr.io),
         [RFEvent.sendfileTry cap, RFEvent.spliceTry cap])
      else
        let g := genericReadFrom wb chunks final 0
        (g.1, [RFEvent.sendfileTry cap, RFEvent.spliceTry cap] ++ g.2)
  | Src.limitedOther _ => genericReadFrom wb chunks final 0
  | Src.other => genericReadFrom wb chunks final 0

/-- An attempt behavior that always handles the transfer, reporting 10
bytes and no error. -/
def handledAttempt : Int → Int × Option Err × Bool := fun _ => (10, none, true)

/-- An attempt behavior that is never usable, returning the source's
`(0, nil, false)` triple. -/
def unhandledAttempt : Int → Int × Option Err × Bool := fun _ => (0, none, false)

/-- The state of the file argument of the mmap-splice strategy: the result
of Seek(0, io.SeekCurrent) (`none` = error), whether Stat succeeds, the
file's bytes (so Stat's Size is `content.length` and the mapping of the
whole extent holds exactly `content`), and whether syscall.Mmap succeeds. -/
structure FileModel where
  seekCur : Option Int
  statOk : Bool
  content : List Byte
  mmapOk : Bool

/-- A FileModel whose seek, stat and mmap all succeed. -/
def okFile (content : List Byte) (offset : Nat) : FileModel :=
  ⟨some (offset : Int), true, content, true⟩

/-- An event of the mmap-splice strategy: the mmap call with its arguments,
the munmap, or one chunked call to the session's Write together with the
count that Write reported. -/
inductive SpEvent
  | mmapEv (offset : Nat) (len : Nat) (prot : Nat) (flags : Nat)
  | munmapEv
  | writeEv (chunk : List Byte) (reported : Nat)
  deriving DecidableEq, Repr

/-- Outcome of the chunking loop inside `(*ihash).splice`: success, or the
failing Write's error together with the `int64(start + n)` the source
returns there. -/
inductive LoopResult
  | success (events : List SpEvent)
  | failure (written : Int) (e : Err) (events : List SpEvent)
  deriving DecidableEq, Repr

/-- The chunking loop of `(*ihash).splice` (part_001 lines 167-180),
translated with explicit state: `start`/`end_` are the window bounds,
`k` counts Write calls (the Write behavior `wb` may depend on how many
calls came before, mirroring the stateful session socket), and `fuel`
bounds the iteration count (`none` = fuel exhausted; the Go loop has no
bound of its own). Each iteration writes `bytes[start:end_]`; on error it
returns `start + n`; on success it advances `start` by the reported count,
stops once `start` reaches `total`, and otherwise slides the window end by
the same count, clamped to `total`. -/
def spliceLoop (wb : Nat → List Byte → Nat × Option Err) (bytes : List Byte)
    (total : Nat) : Nat → Nat → Nat → Nat → Option LoopResult
  | _, _, _, 0 => none
  | start, end_, k, fuel + 1 =>
    let chunk := (bytes.drop start).take (end_ - start)
    let w := wb k chunk
    match w.2 with
    | some e =>
      some (LoopResult.failure ((start : Int) + (w.1 : Int)) e
        [SpEvent.writeEv chunk w.1])
    | none =>
      let start' := start + w.1
      if total ≤ start' then some (LoopResult.success [SpEvent.writeEv chunk w.1])
      else
        match spliceLoop wb bytes total start' (min (end_ + w.1) total) (k + 1) fuel with
        | none => none
        | some (LoopResult.success evs) =>
          some (LoopResult.success (SpEvent.writeEv chunk w.1 :: evs))
        | some (LoopResult.failure wr e evs) =>
          some (LoopResult.failure wr e (SpEvent.writeEv chunk w.1 :: evs))

/-- Embedding of `(*ihash).splice` (part_001 lines 137-182). Seek, Stat or
Mmap failure returns `(0, nil, false)` — unusable, routed onward with no
error. Otherwise the whole extent is mapped with PROT_READ/MAP_SHARED,
`bytes := mmap[offset : offset+remain]` is carved out (remain defaults to
size - offset when the caller passed the -1 sentinel), the chunking loop
runs with initial window `[0, min 64KiB total)`, and the deferred Munmap is
recorded at the end of the trace on both the success and the failure exit.
Success returns `remain`; failure returns the loop's `start + n` count with
the Write error. -/
def ihashSplice (fm : FileModel) (wb : Nat → List Byte → Nat × Option Err)
    (remainArg : Int) (fuel : Nat) :
    Option ((Int × Option Err × Bool) × List SpEvent) :=
  match fm.seekCur with
  | none => some ((0, none, false), [])
  | some offset =>
    if fm.statOk = false then some ((0, none, false), [])
    else
      let size : Int := (fm.content.length : Int)
      let remain := if remainArg = -1 then size - offset else remainArg
      if fm.mmapOk = false then some ((0, none, false), [])
      else
        let mEv := SpEvent.mmapEv 0 fm.content.length PROT_READ MAP_SHARED
        let bytes := (fm.content.drop offset.toNat).take remain.toNat
        let total := bytes.length
        match spliceLoop wb bytes total 0 (min defaultSocketBufferSize total) 0 fuel with
        | none => none
        | some (LoopResult.success evs) =>
          some ((remain, none, true), (mEv :: evs) ++ [SpEvent.munmapEv])
        | some (LoopResult.failure wr e evs) =>
          some ((wr, some e, true), (mEv :: evs) ++ [SpEvent.munmapEv])

/-- Sum of the counts reported by the Write calls recorded in a trace: the
bytes written so far, as the Write calls themselves reported them. -/
def sumReported : List SpEvent → Nat
  | [] => 0
  | SpEvent.writeEv _ n :: rest => n + sumReported rest
  | _ :: rest => sumReported rest

/-- Concatenation of the chunks handed to Write in a trace. -/
def chunksConcat : List SpEvent → List Byte
  | [] => []
  | SpEvent.writeEv c _ :: rest => c ++ chunksConcat rest
  | _ :: rest => chunksConcat rest

/-- Embedding of `(*ihash).Sum` (part_001 lines 237-244): one Read on the
accepted socket into the scratch buffer `buf`; the read behavior maps the
buffer length to the bytes it deposits and an error. On success the result
is `append(b, h.buf[:n])` where `n` is the byte count read and the buffer
now starts with the deposited bytes; on error the Go code panics. The
second component counts the Read calls issued. -/
def ihashSum (readB : Nat → List Byte × Option Err) (buf : List Byte)
    (b : List Byte) : GoResult (List Byte) × Nat :=
  let r := readB buf.length
  match r.2 with
  | some e => (Except.error (GoPanic.sumReadFailed e), 1)
  | none =>
    (Except.ok (b ++ (r.1 ++ buf.drop r.1.length).take r.1.length), 1)

/-- The kinds of file descriptors a Hash session owns. -/
inductive SessionFd
  | socketFd
  | pipeReadFd
  | pipeWriteFd
  deriving DecidableEq, Repr

/-- The descriptors acquired when `(*conn).Hash` creates a session
(part_001 lines 71-90): the accepted socket plus the two fds of the pipe
pair created by `newPipe` (part_001 lines 279-289). -/
def sessionAcquiredFds : List SessionFd :=
  [SessionFd.socketFd, SessionFd.pipeReadFd, SessionFd.pipeWriteFd]

/-- Embedding of `(*ihash).Close` (part_001 lines 106-108): the body is
exactly `return h.s.Close()`. The result is the socket close's error and
the list of session descriptors the call closes. -/
def ihashClose (sockClose : Option Err) : Option Err × List SessionFd :=
  (sockClose, [SessionFd.socketFd])

/-- Embedding of `hashSizes` (alg.go lines 118-129): md5, sha1 and sha256
map to their digest and block sizes; every other name is unknown. -/
def hashSizes (name : String) : Option (Nat × Nat) :=
  if name = "md5" then some (16, 64)
  else if name = "sha1" then some (20, 64)
  else if name = "sha256" then some (32, 64)
  else none

/-- The outcome of the public `Dial`. -/
inductive DialResult
  | ok (size blockSize : Nat)
  | errUnknownHashAlgorithm (name : String)
  | errUnsupportedType (typ : String)
  | errOS (e : Err)
  deriving DecidableEq, Repr

/-- Embedding of `Dial` (alg.go lines 37-67): the transformation type is
switched first; for `hash`, `hashSizes` is consulted and an unknown name
returns the unknown-algorithm error; any other type returns the
unsupported-type error. Only after these checks does `Dial` call the
OS-specific constructor `dial` (whose behavior is `dialOS`); the Boolean
records whether that constructor — the only place a kernel socket is
created — was invoked. -/
def Dial (dialOS : Option Err) (typ name : String) : DialResult × Bool :=
  if typ = "hash" then
    match hashSizes name with
    | none => (DialResult.errUnknownHashAlgorithm name, false)
    | some (s, bs) =>
      match dialOS with
      | some e => (DialResult.errOS e, true)
      | none => (DialResult.ok s bs, true)
  else (DialResult.errUnsupportedType typ, false)

/-- An error value of the package; the non-Linux stub's sentinel carries
the platform strings it was built from (alg_others.go lines 10-15). -/
inductive AlgError
  | unimplemented (goos goarch : String)
  | osErr (e : Err)
  deriving DecidableEq, Repr

/-- The single package-level sentinel `errUnimplemented`, constructed once
from runtime.GOOS and runtime.GOARCH (alg_others.go lines 10-15). -/
def errUnimplemented (goos goarch : String) : AlgError :=
  AlgError.unimplemented goos goarch

/-- `dial` of the non-Linux stub (alg_others.go lines 21-23): always fails
with the sentinel. -/
def othersDial (goos goarch typ name : String) : Except AlgError Unit :=
  Except.error (errUnimplemented goos goarch)

/-- `(*conn).Close` of the non-Linux stub (alg_others.go lines 26-28). -/
def othersConnClose (goos goarch : String) : Option AlgError :=
  some (errUnimplemented goos goarch)

/-- `(*conn).Hash` of the non-Linux stub (alg_others.go lines 31-33). -/
def othersConnHash (goos goarch : String) (size blockSize : Nat) :
    Except AlgError Unit :=
  Except.error (errUnimplemented goos goarch)

/-- C1, counterexample: with a legal pipe behavior whose memory-splice
primitive accepts one byte fewer than offered (a short transfer, no error)
and whose splice succeeds, `Write` of the two-byte slice succeeds yet
reports 1 byte consumed, not the full input length 2: the implementation
does not loop on the remainder. -/
theorem c1_counterexample :
    (ihashWrite fullPipe shortVmsplicePipe 9 [0, 0]).err = none ∧
    (ihashWrite fullPipe shortVmsplicePipe 9 [0, 0]).n ≠ 2 := by decide

/-- C1, amended: `Write` always reports exactly the count returned by the
single memory-splice call (it issues exactly one such call — no loop); in
particular a successful call reports `len(b)` precisely when the memory-splice
primitive accepted the whole buffer. The looping over short transfers is
performed by the mmap-splice caller, not by `Write` itself. -/
theorem c1_write_reports_vmsplice_count (pipe0 pipe1 : PipeBehavior)
    (sfd : Nat) (b : List Byte)
    (hv : pipe1.vmsplice b 0 = (b.length, none)) :
    (ihashWrite pipe0 pipe1 sfd b).n = b.length ∧
    (ihashWrite pipe0 pipe1 sfd b).err =
      (pipe0.spliceTo sfd b.length (SPLICE_F_MOVE ||| SPLICE_F_MORE)).2 ∧
    ((ihashWrite pipe0 pipe1 sfd b).events.filter WEvent.isVmsplice).length
      = 1 := by
  simp [ihashWrite, hv, List.filter, WEvent.isVmsplice]

/-- C1, witness: the amended statement at the always-succeeding pipe
behavior and a concrete three-byte input. -/
theorem c1_write_reports_vmsplice_count_witness :
    (ihashWrite fullPipe fullPipe 9 [3, 4, 5]).n = 3 ∧
    (ihashWrite fullPipe fullPipe 9 [3, 4, 5]).err =
      (fullPipe.spliceTo 9 3 (SPLICE_F_MOVE ||| SPLICE_F_MORE)).2 ∧
    ((ihashWrite fullPipe fullPipe 9 [3, 4, 5]).events.filter
      WEvent.isVmsplice).length = 1 :=
  c1_write_reports_vmsplice_count fullPipe fullPipe 9 [3, 4, 5] (by decide)

/-- C2, counterexample: on a concrete successful write, the splice call into
the session socket is issued with flags `SPLICE_F_MOVE|SPLICE_F_MORE` = 5,
whose `SPLICE_F_NONBLOCK` bit is clear: the claim's third flag semantics,
do not block waiting for a full buffer, is not passed. -/
theorem c2_counterexample :
    (ihashWrite fullPipe fullPipe 7 [0]).events =
      [WEvent.vmspliceCall 1 [0] 0,
       WEvent.spliceCall 0 7 1 (SPLICE_F_MOVE ||| SPLICE_F_MORE)] ∧
    SPLICE_F_MOVE ||| SPLICE_F_MORE = 5 ∧
    ((SPLICE_F_MOVE ||| SPLICE_F_MORE) &&& SPLICE_F_NONBLOCK) = 0 := by
  decide

/-- C2, amended: whenever the memory-splice succeeds, `Write` first moves
the caller's bytes into the pipe's write end (index 1) via vmsplice with
flags 0, then drains the pipe's read end (index 0) into the session socket
via splice with flags `SPLICE_F_MOVE|SPLICE_F_MORE` (move pages, more data
follows) — the nonblock flag is not among them. -/
theorem c2_write_trace (pipe0 pipe1 : PipeBehavior) (sfd : Nat)
    (b : List Byte) (hv : (pipe1.vmsplice b 0).2 = none) :
    (ihashWrite pipe0 pipe1 sfd b).events =
      [WEvent.vmspliceCall 1 b 0,
       WEvent.spliceCall 0 sfd (pipe1.vmsplice b 0).1
         (SPLICE_F_MOVE ||| SPLICE_F_MORE)] := by
  simp only [ihashWrite, hv]

/-- C2, witness: the amended trace statement at a concrete input. -/
theorem c2_write_trace_witness :
    (ihashWrite fullPipe fullPipe 8 [0, 1]).events =
      [WEvent.vmspliceCall 1 [0, 1] 0,
       WEvent.spliceCall 0 8 (fullPipe.vmsplice [0, 1] 0).1
         (SPLICE_F_MOVE ||| SPLICE_F_MORE)] :=
  c2_write_trace fullPipe fullPipe 8 [0, 1] (by decide)

/-- C3, counterexample: under a legal behavior of the underlying primitives
(memory-splice reports a short transfer without error), the pipe-relay
strategy succeeds reporting 1 byte while the sendto strategy, with its
socket succeeding, succeeds reporting the full 2 bytes: the two strategies
do not produce the same observable outcome for every underlying behavior. -/
theorem c3_counterexample :
    (ihashWrite fullPipe shortVmsplicePipe 9 [0, 1]).err = none ∧
    (ihashWriteSendto (fun _ _ => none) [0, 1]).2 = none ∧
    (ihashWrite fullPipe shortVmsplicePipe 9 [0, 1]).n ≠
      (ihashWriteSendto (fun _ _ => none) [0, 1]).1 := by decide

/-- C3, amended: assuming the memory-splice primitive reports the full
input length whenever it succeeds, the two write strategies satisfy the
same contract at the Hash interface: each reports exactly `len(b)` bytes
transferred on success, and otherwise reports an error. -/
theorem c3_strategies_agree (pipe0 pipe1 : PipeBehavior)
    (sendto : List Byte → Nat → Option Err) (sfd : Nat) (b : List Byte)
    (hv : (pipe1.vmsplice b 0).2 = none →
      (pipe1.vmsplice b 0).1 = b.length) :
    ((ihashWrite pipe0 pipe1 sfd b).err = none →
      (ihashWrite pipe0 pipe1 sfd b).n = b.length) ∧
    ((ihashWriteSendto sendto b).2 = none →
      (ihashWriteSendto sendto b).1 = b.length) := by
  constructor
  · intro hsucc
    cases h : (pipe1.vmsplice b 0).2 with
    | none =>
      simp only [ihashWrite, h]
      exact hv h
    | some e =>
      simp only [ihashWrite, h] at hsucc
      exact absurd hsucc (Option.some_ne_none e)
  · intro _
    rfl

/-- C3, witness: the amended agreement statement at the always-succeeding
behaviors and a concrete input. -/
theorem c3_strategies_agree_witness :
    ((ihashWrite fullPipe fullPipe 7 [0, 0, 0]).err = none →
      (ihashWrite fullPipe fullPipe 7 [0, 0, 0]).n = 3) ∧
    ((ihashWriteSendto (fun _ _ => none) [0, 0, 0]).2 = none →
      (ihashWriteSendto (fun _ _ => none) [0, 0, 0]).1 = 3) :=
  c3_strategies_agree fullPipe fullPipe (fun _ _ => none) 7 [0, 0, 0]
    (by decide)

/-- C10: the zero-copy write path is total only for non-empty inputs. With
the real `sysPipe` vmsplice, `Write` of the empty slice evaluates the
address of the first element and panics with an index-out-of-range runtime
error (a crash, not a returned error value); for every non-empty slice the
call returns a value. -/
theorem c10_write_empty_panics (vms : List Byte → Nat → Nat × Option Err)
    (spl : Nat → Nat → Nat → Int × Option Err) (sfd : Nat) :
    ihashWriteSys vms spl sfd [] = Except.error GoPanic.indexOutOfRange ∧
    ∀ b : List Byte, b ≠ [] →
      ∃ r, ihashWriteSys vms spl sfd b = Except.ok r := by
  constructor
  · rfl
  · intro b hb
    cases b with
    | nil => exact absurd rfl hb
    | cons a t =>
      simp only [ihashWriteSys, sysPipeVmsplice]
      cases h : vms (a :: t) 0 with
      | mk n e =>
        cases e with
        | none => exact ⟨(n, (spl sfd n (SPLICE_F_MOVE ||| SPLICE_F_MORE)).2), rfl⟩
        | some err => exact ⟨(n, some err), rfl⟩

/-- C10, witness: the panic statement at concrete syscall behaviors, with
the non-emptiness hypothesis discharged at the one-byte slice. -/
theorem c10_write_empty_panics_witness :
    (ihashWriteSys (fun b _ => (b.length, none)) (fun _ s _ => ((s : Int), none)) 5 []
      = Except.error GoPanic.indexOutOfRange) ∧
    ∃ r, ihashWriteSys (fun b _ => (b.length, none))
      (fun _ s _ => ((s : Int), none)) 5 [9] = Except.ok r :=
  ⟨(c10_write_empty_panics (fun b _ => (b.length, none))
      (fun _ s _ => ((s : Int), none)) 5).1,
   (c10_write_empty_panics (fun b _ => (b.length, none))
      (fun _ s _ => ((s : Int), none)) 5).2 [9] (by decide)⟩

/-- C6: `Sum(b)` issues exactly one Read on the session's accepted socket
into the scratch buffer; when the Read succeeds depositing `p` (so `n` is
`p.length`), the result is exactly the concatenation of the prefix with
those bytes; when the Read fails, the call panics (a fatal abort) instead
of returning a recoverable error. -/
theorem c6_sum_concat_or_panic (readB : Nat → List Byte × Option Err)
    (buf b : List Byte) (hr : (readB buf.length).2 = none) :
    (ihashSum readB buf b).2 = 1 ∧
    (ihashSum readB buf b).1 = Except.ok (b ++ (readB buf.length).1) ∧
    (∀ readB2 : Nat → List Byte × Option Err, ∀ e : Err,
      (readB2 buf.length).2 = some e →
      (ihashSum readB2 buf b).1 = Except.error (GoPanic.sumReadFailed e) ∧
      (ihashSum readB2 buf b).2 = 1) := by
  refine ⟨?_, ?_, ?_⟩
  · simp only [ihashSum, hr]
  · simp only [ihashSum, hr, List.take_left]
  · intro readB2 e he
    simp [ihashSum, he]

/-- C6, witness: Sum at a concrete succeeding read (depositing two bytes
into a four-byte buffer) and, inside, a concrete failing read. -/
theorem c6_sum_concat_or_panic_witness :
    (ihashSum (fun _ => ([7, 8], none)) [0, 0, 0, 0] [1]).2 = 1 ∧
    (ihashSum (fun _ => ([7, 8], none)) [0, 0, 0, 0] [1]).1 =
      Except.ok ([1] ++ [7, 8]) ∧
    (∀ readB2 : Nat → List Byte × Option Err, ∀ e : Err,
      (readB2 [0, 0, 0, 0].length).2 = some e →
      (ihashSum readB2 [0, 0, 0, 0] [1]).1 =
        Except.error (GoPanic.sumReadFailed e) ∧
      (ihashSum readB2 [0, 0, 0, 0] [1]).2 = 1) :=
  c6_sum_concat_or_panic (fun _ => ([7, 8], none)) [0, 0, 0, 0] [1] (by decide)

/-- C7: the session's Close closes only the accepted socket — its body is
`return h.s.Close()` — so the two pipe descriptors acquired at session
creation are never released by Close, contradicting the claim (and the
package's own documentation that Close releases the Hash's resources). -/
theorem c7_close_leaves_pipes_open :
    (ihashClose none).2 = [SessionFd.socketFd] ∧
    SessionFd.pipeReadFd ∉ (ihashClose none).2 ∧
    SessionFd.pipeWriteFd ∉ (ihashClose none).2 ∧
    sessionAcquiredFds.diff (ihashClose none).2 =
      [SessionFd.pipeReadFd, SessionFd.pipeWriteFd] := by decide

/-- C8: with the `hash` transformation type and an algorithm name other
than md5, sha1 or sha256, `Dial` returns the unknown-algorithm error, and
with any other transformation type the unsupported-type error; in both
cases the OS-specific socket constructor is never invoked (the Boolean
component, which records that invocation, is false), so no kernel resource
is touched on these error paths. -/
theorem c8_dial_unknown_before_socket (dialOS : Option Err)
    (typ name : String) (h1 : name ≠ "md5") (h2 : name ≠ "sha1")
    (h3 : name ≠ "sha256") :
    Dial dialOS "hash" name =
      (DialResult.errUnknownHashAlgorithm name, false) ∧
    (typ ≠ "hash" →
      Dial dialOS typ name = (DialResult.errUnsupportedType typ, false)) := by
  constructor
  · simp [Dial, hashSizes, h1, h2, h3]
  · intro ht
    simp [Dial, ht]

/-- C8, witness: Dial at the unknown name crc32 and the unsupported
transformation type skcipher. -/
theorem c8_dial_unknown_before_socket_witness :
    Dial none "hash" "crc32" =
      (DialResult.errUnknownHashAlgorithm "crc32", false) ∧
    ("skcipher" ≠ "hash" →
      Dial none "skcipher" "crc32" =
        (DialResult.errUnsupportedType "skcipher", false)) :=
  c8_dial_unknown_before_socket none "skcipher" "crc32" (by decide)
    (by decide) (by decide)

/-- C9: on platforms lacking AF_ALG, dial, the connection's Close and the
connection's Hash all fail by returning the one package-level sentinel
`errUnimplemented`, uniformly: all three results carry literally the same
error value. -/
theorem c9_unimplemented_uniform (goos goarch typ name : String)
    (size blockSize : Nat) :
    othersDial goos goarch typ name =
      Except.error (errUnimplemented goos goarch) ∧
    othersConnClose goos goarch = some (errUnimplemented goos goarch) ∧
    othersConnHash goos goarch size blockSize =
      Except.error (errUnimplemented goos goarch) :=
  ⟨rfl, rfl, rfl⟩

/-- Helper: the generic buffered copy issues only read and write events —
no sendfile or mmap-splice attempt ever appears in its trace. -/
theorem genericReadFrom_no_fastpath (wb : List Byte → Nat × Option Err) :
    ∀ (cs : List (List Byte)) (final : Option Err) (acc : Int),
      ((genericReadFrom wb cs final acc).2.filter RFEvent.isTry) = [] := by
  intro cs
  induction cs with
  | nil =>
    intro final acc
    cases final <;> simp [genericReadFrom, RFEvent.isTry]
  | cons c cs ih =>
    intro final acc
    by_cases hc : c.isEmpty
    · simp [genericReadFrom, hc, RFEvent.isTry, ih]
    · simp only [genericReadFrom, hc, if_neg]
      cases hw : (wb c).2 with
      | some e => simp [RFEvent.isTry]
      | none =>
        by_cases hlen : (wb c).1 ≠ c.length
        · simp [hlen, RFEvent.isTry]
        · simp [hlen, RFEvent.isTry, List.filter_append, ih]

/-- C4: the source-transfer dispatch. A plain file tries sendfile first
(with the -1 sentinel meaning uncapped) and returns its result when
handled; only when sendfile is unusable is the mmap-splice tried, in that
fixed order; when both are unusable the call is routed onward, with no
error surfaced, to the generic buffered copy. A length-capped wrapper
around a file runs the same two strategies with the cap as the limit. Any
other source goes straight to the generic copy, whose trace contains no
fast-path attempt: it treats the session purely as an opaque sink. -/
theorem c4_readfrom_dispatch (sfA spA : Int → Int × Option Err × Bool)
    (wb : List Byte → Nat × Option Err) (chunks : List (List Byte))
    (final : Option Err) (cap : Int) :
    ((sfA (-1)).2.2 = true →
      ihashReadFrom sfA spA wb chunks final Src.file =
        (((sfA (-1)).1, ((sfA (-1)).2.1).map CopyErr.io),
         [RFEvent.sendfileTry (-1)])) ∧
    ((sfA (-1)).2.2 = false → (spA (-1)).2.2 = true →
      ihashReadFrom sfA spA wb chunks final Src.file =
        (((spA (-1)).1, ((spA (-1)).2.1).map CopyErr.io),
         [RFEvent.sendfileTry (-1), RFEvent.spliceTry (-1)])) ∧
    ((sfA (-1)).2.2 = false → (spA (-1)).2.2 = false →
      ihashReadFrom sfA spA wb chunks final Src.file =
        ((genericReadFrom wb chunks final 0).1,
         [RFEvent.sendfileTry (-1), RFEvent.spliceTry (-1)] ++
           (genericReadFrom wb chunks final 0).2)) ∧
    ((sfA cap).2.2 = true →
      ihashReadFrom sfA spA wb chunks final (Src.limitedFile cap) =
        (((sfA cap).1, ((sfA cap).2.1).map CopyErr.io),
         [RFEvent.sendfileTry cap])) ∧
    ((sfA cap).2.2 = false → (spA cap).2.2 = true →
      ihashReadFrom sfA spA wb chunks final (Src.limitedFile cap) =
        (((spA cap).1, ((spA cap).2.1).map CopyErr.io),
         [RFEvent.sendfileTry cap, RFEvent.spliceTry cap])) ∧
    ((sfA cap).2.2 = false → (spA cap).2.2 = false →
      ihashReadFrom sfA spA wb chunks final (Src.limitedFile cap) =
        ((genericReadFrom wb chunks final 0).1,
         [RFEvent.sendfileTry cap, RFEvent.spliceTry cap] ++
           (genericReadFrom wb chunks final 0).2)) ∧
    (ihashReadFrom sfA spA wb chunks final Src.other =
      genericReadFrom wb chunks final 0) ∧
    (ihashReadFrom sfA spA wb chunks final (Src.limitedOther cap) =
      genericReadFrom wb chunks final 0) ∧
    (((genericReadFrom wb chunks final 0).2.filter RFEvent.isTry) = []) := by
  refine ⟨?_, ?_, ?_, ?_, ?_, ?_, rfl, rfl,
    genericReadFrom_no_fastpath wb chunks final 0⟩ <;>
    (intros; simp_all [ihashReadFrom])

/-- C4, witness: the dispatch at concrete attempt behaviors covering the
handled-first, handled-second and both-unusable cases, for the plain-file
and the capped-file source. -/
theorem c4_readfrom_dispatch_witness :
    (ihashReadFrom handledAttempt unhandledAttempt (fun c => (c.length, none))
        [[1, 2]] none Src.file =
      ((10, none), [RFEvent.sendfileTry (-1)])) ∧
    (ihashReadFrom unhandledAttempt handledAttempt (fun c => (c.length, none))
        [[1, 2]] none Src.file =
      ((10, none), [RFEvent.sendfileTry (-1), RFEvent.spliceTry (-1)])) ∧
    (ihashReadFrom unhandledAttempt unhandledAttempt (fun c => (c.length, none))
        [[1, 2]] none Src.file =
      ((genericReadFrom (fun c => (c.length, none)) [[1, 2]] none 0).1,
       [RFEvent.sendfileTry (-1), RFEvent.spliceTry (-1)] ++
         (genericReadFrom (fun c => (c.length, none)) [[1, 2]] none 0).2)) ∧
    (ihashReadFrom handledAttempt unhandledAttempt (fun c => (c.length, none))
        [[1, 2]] none (Src.limitedFile 5) =
      ((10, none), [RFEvent.sendfileTry 5])) ∧
    (ihashReadFrom unhandledAttempt handledAttempt (fun c => (c.length, none))
        [[1, 2]] none (Src.limitedFile 5) =
      ((10, none), [RFEvent.sendfileTry 5, RFEvent.spliceTry 5])) ∧
    (ihashReadFrom unhandledAttempt unhandledAttempt (fun c => (c.length, none))
        [[1, 2]] none (Src.limitedFile 5) =
      ((genericReadFrom (fun c => (c.length, none)) [[1, 2]] none 0).1,
       [RFEvent.sendfileTry 5, RFEvent.spliceTry 5] ++
         (genericReadFrom (fun c => (c.length, none)) [[1, 2]] none 0).2)) :=
  ⟨(c4_readfrom_dispatch handledAttempt unhandledAttempt
      (fun c => (c.length, none)) [[1, 2]] none 5).1 rfl,
   (c4_readfrom_dispatch unhandledAttempt handledAttempt
      (fun c => (c.length, none)) [[1, 2]] none 5).2.1 rfl rfl,
   (c4_readfrom_dispatch unhandledAttempt unhandledAttempt
      (fun c => (c.length, none)) [[1, 2]] none 5).2.2.1 rfl rfl,
   (c4_readfrom_dispatch handledAttempt unhandledAttempt
      (fun c => (c.length, none)) [[1, 2]] none 5).2.2.2.1 rfl,
   (c4_readfrom_dispatch unhandledAttempt handledAttempt
      (fun c => (c.length, none)) [[1, 2]] none 5).2.2.2.2.1 rfl rfl,
   (c4_readfrom_dispatch unhandledAttempt unhandledAttempt
      (fun c => (c.length, none)) [[1, 2]] none 5).2.2.2.2.2.1 rfl rfl⟩

/-- Helper: `sumReported` distributes over list append. -/
theorem sumReported_append (l1 l2 : List SpEvent) :
    sumReported (l1 ++ l2) = sumReported l1 + sumReported l2 := by
  induction l1 with
  | nil => simp [sumReported]
  | cons a t ih =>
    cases a <;> simp [sumReported, ih] <;> omega

/-- Helper: when the chunking loop of the mmap-splice strategy stops with a
Write failure, the `int64(start + n)` it returns equals the entry offset
plus the total of the counts the Write calls in its trace reported. -/
theorem spliceLoop_failure_written (wb : Nat → List Byte → Nat × Option Err)
    (bytes : List Byte) (total : Nat) :
    ∀ (fuel start end_ k : Nat) (w : Int) (e : Err) (evs : List SpEvent),
      spliceLoop wb bytes total start end_ k fuel =
        some (LoopResult.failure w e evs) →
      w = (start : Int) + (sumReported evs : Int) := by
  intro fuel
  induction fuel with
  | zero =>
    intro start end_ k w e evs h
    simp [spliceLoop] at h
  | succ n ih =>
    intro start end_ k w e evs h
    simp only [spliceLoop] at h
    cases hw : (wb k ((bytes.drop start).take (end_ - start))).2 with
    | some e0 =>
      rw [hw] at h
      simp only [Option.some.injEq, LoopResult.failure.injEq] at h
      obtain ⟨h1, _, h3⟩ := h
      subst h3
      simp [sumReported, ← h1]
    | none =>
      rw [hw] at h
      by_cases hs : total ≤ start + (wb k ((bytes.drop start).take (end_ - start))).1
      · simp [hs] at h
      · simp only [hs, if_neg, if_false] at h
        cases hrec : spliceLoop wb bytes total
            (start + (wb k ((bytes.drop start).take (end_ - start))).1)
            (min (end_ + (wb k ((bytes.drop start).take (end_ - start))).1) total)
            (k + 1) n with
        | none => rw [hrec] at h; simp at h
        | some r =>
          rw [hrec] at h
          cases r with
          | success evs2 => simp at h
          | failure wr er evs2 =>
            simp only [Option.some.injEq, LoopResult.failure.injEq] at h
            obtain ⟨h1, h2, h3⟩ := h
            subst h1; subst h3
            have := ih (start + (wb k ((bytes.drop start).take (end_ - start))).1)
              (min (end_ + (wb k ((bytes.drop start).take (end_ - start))).1) total)
              (k + 1) wr er evs2 hrec
            rw [this]
            simp [sumReported]
            push_cast
            ring

/-- Helper: under a Write behavior that always accepts each chunk in full,
the chunking loop succeeds (with enough fuel), its chunks concatenate to
exactly the byte range it was started on, every chunk is at most 64 KiB,
and every chunk but the last is exactly 64 KiB. -/
theorem spliceLoop_success_full (wb : Nat → List Byte → Nat × Option Err)
    (bytes : List Byte) (hwb : ∀ k c, wb k c = (c.length, none)) :
    ∀ (fuel start end_ k : Nat),
      start ≤ bytes.length →
      end_ = min (start + defaultSocketBufferSize) bytes.length →
      bytes.length < start + fuel →
      ∃ evs, spliceLoop wb bytes bytes.length start end_ k fuel =
          some (LoopResult.success evs) ∧
        chunksConcat evs = bytes.drop start ∧
        (∀ c n, SpEvent.writeEv c n ∈ evs →
          c.length ≤ defaultSocketBufferSize) ∧
        (∀ c n, SpEvent.writeEv c n ∈ evs.dropLast →
          c.length = defaultSocketBufferSize) := by
  intro fuel
  induction fuel with
  | zero =>
    intro start end_ k hstart hend hfuel
    omega
  | succ m ih =>
    intro start end_ k hstart hend hfuel
    have hendle : end_ ≤ bytes.length := by omega
    have hstartend : start ≤ end_ := by omega
    have hchunklen : ((bytes.drop start).take (end_ - start)).length
        = end_ - start := by
      rw [List.length_take, List.length_drop]
      omega
    have hw := hwb k ((bytes.drop start).take (end_ - start))
    by_cases hs : bytes.length ≤ start + (end_ - start)
    · -- the window reaches the end of the range: one final chunk
      have hendeq : end_ = bytes.length := by omega
      refine ⟨[SpEvent.writeEv ((bytes.drop start).take (end_ - start))
        ((bytes.drop start).take (end_ - start)).length], ?_, ?_, ?_, ?_⟩
      · simp only [spliceLoop, hw, hchunklen]
        rw [if_pos (by omega)]
      · have : end_ - start = (bytes.drop start).length := by
          rw [List.length_drop]; omega
        simp only [chunksConcat, this, List.take_length, List.append_nil]
      · intro c n hmem
        simp only [List.mem_singleton, SpEvent.writeEv.injEq] at hmem
        rw [hmem.1, hchunklen]
        omega
      · intro c n hmem
        simp [List.dropLast] at hmem
    · -- the window stops short: this chunk is exactly 64 KiB, recurse
      have hwindow : end_ = start + defaultSocketBufferSize := by
        by_contra hne
        have : end_ = bytes.length := by omega
        omega
      have hchunkB : ((bytes.drop start).take (end_ - start)).length
          = defaultSocketBufferSize := by omega
      have hrec := ih (start + defaultSocketBufferSize)
        (min (start + defaultSocketBufferSize + defaultSocketBufferSize)
          bytes.length) (k + 1)
        (by omega) (by omega)
        (by simp only [defaultSocketBufferSize]; omega)
      obtain ⟨evs2, hloop2, hcat2, hle2, hlast2⟩ := hrec
      have hne2 : evs2 ≠ [] := by
        intro hnil
        rw [hnil] at hcat2
        have : (bytes.drop (start + defaultSocketBufferSize)).length = 0 := by
          rw [← hcat2]; rfl
        rw [List.length_drop] at this
        omega
      refine ⟨SpEvent.writeEv ((bytes.drop start).take (end_ - start))
        ((bytes.drop start).take (end_ - start)).length :: evs2, ?_, ?_, ?_, ?_⟩
      · simp only [spliceLoop, hw, hchunklen]
        rw [if_neg (by omega)]
        have harg1 : start + (end_ - start) = start + defaultSocketBufferSize := by
          omega
        have harg2 : min (end_ + (end_ - start)) bytes.length
            = min (start + defaultSocketBufferSize + defaultSocketBufferSize)
              bytes.length := by omega
        rw [harg1, harg2, hloop2]
      · simp only [chunksConcat, hcat2]
        have hdd : bytes.drop (start + defaultSocketBufferSize)
            = (bytes.drop start).drop (end_ - start) := by
          rw [List.drop_drop]
          congr 1
          omega
        rw [hdd]
        exact List.take_append_drop (end_ - start) (bytes.drop start)
      · intro c n hmem
        rcases List.mem_cons.mp hmem with hhd | htl
        · simp only [SpEvent.writeEv.injEq] at hhd
          rw [hhd.1, hchunkB]
        · exact hle2 c n htl
      · intro c n hmem
        obtain ⟨b2, t2, hbt⟩ : ∃ b2 t2, evs2 = b2 :: t2 := by
          cases evs2 with
          | nil => exact absurd rfl hne2
          | cons b2 t2 => exact ⟨b2, t2, rfl⟩
        rw [hbt] at hmem
        simp only [List.dropLast] at hmem
        rcases List.mem_cons.mp hmem with hhd | htl
        · simp only [SpEvent.writeEv.injEq] at hhd
          rw [hhd.1, hchunkB]
        · exact hlast2 c n (by rw [hbt]; simpa [List.dropLast] using htl)

/-- Helper: on a file whose seek, stat and mmap succeed and whose offset is
within the extent, the mmap-splice strategy with the -1 sentinel reduces to
the chunking loop over `content[offset:]`, wrapped in the mmap event in
front and the deferred munmap event behind, on both exit paths. -/
theorem ihashSplice_okFile_eq (content : List Byte) (offset : Nat)
    (wb : Nat → List Byte → Nat × Option Err) (fuel : Nat)
    (hoff : offset ≤ content.length) :
    ihashSplice (okFile content offset) wb (-1) fuel =
      match spliceLoop wb (content.drop offset) (content.length - offset) 0
          (min defaultSocketBufferSize (content.length - offset)) 0 fuel with
      | none => none
      | some (LoopResult.success evs) =>
        some (((content.length : Int) - (offset : Int), none, true),
          (SpEvent.mmapEv 0 content.length PROT_READ MAP_SHARED :: evs)
            ++ [SpEvent.munmapEv])
      | some (LoopResult.failure wr e evs) =>
        some ((wr, some e, true),
          (SpEvent.mmapEv 0 content.length PROT_READ MAP_SHARED :: evs)
            ++ [SpEvent.munmapEv]) := by
  have hremain : (((content.length : Int)) - (offset : Int)).toNat
      = content.length - offset := by omega
  have htonat : ((offset : Int)).toNat = offset := Int.toNat_natCast offset
  have hbytes : (content.drop offset).take (content.length - offset)
      = content.drop offset := by
    have hlen : (content.drop offset).length = content.length - offset :=
      List.length_drop offset content
    rw [← hlen, List.take_length]
  simp only [ihashSplice, okFile, Bool.true_eq_false, if_neg, if_false,
    if_pos rfl, if_true, htonat, hremain, hbytes, List.length_drop]

/-- C5: the mmap-splice strategy. (a) Whenever it reaches an outcome, its
trace opens with the read-only `PROT_READ`/`MAP_SHARED` mapping of the
file's entire extent at offset 0 and closes with the deferred unmapping, on
every exit path. (b) Under a Write behavior accepting every chunk in full,
it succeeds reporting `remain = size - offset` and the chunks fed to the
write path concatenate to exactly `[offset, size)`, each at most 64 KiB
(`defaultSocketBufferSize`) and all but the last exactly 64 KiB. (c) When
a chunk's Write fails, the reported count is exactly the cumulative bytes
written as reported by the Write calls, alongside the error. -/
theorem c5_mmap_splice (content : List Byte) (offset : Nat)
    (wb : Nat → List Byte → Nat × Option Err) (fuel : Nat)
    (hoff : offset ≤ content.length) :
    (∀ res evs,
      ihashSplice (okFile content offset) wb (-1) fuel = some (res, evs) →
      evs.head? = some (SpEvent.mmapEv 0 content.length PROT_READ MAP_SHARED) ∧
      evs.getLast? = some SpEvent.munmapEv) ∧
    ((∀ k c, wb k c = (c.length, none)) → content.length < offset + fuel →
      ∃ evs,
        ihashSplice (okFile content offset) wb (-1) fuel =
          some (((content.length : Int) - (offset : Int), none, true),
            (SpEvent.mmapEv 0 content.length PROT_READ MAP_SHARED :: evs)
              ++ [SpEvent.munmapEv]) ∧
        chunksConcat evs = content.drop offset ∧
        (∀ c n, SpEvent.writeEv c n ∈ evs →
          c.length ≤ defaultSocketBufferSize) ∧
        (∀ c n, SpEvent.writeEv c n ∈ evs.dropLast →
          c.length = defaultSocketBufferSize)) ∧
    (∀ w e evs,
      ihashSplice (okFile content offset) wb (-1) fuel =
        some ((w, some e, true), evs) →
      w = (sumReported evs : Int)) := by
  have heq := ihashSplice_okFile_eq content offset wb fuel hoff
  refine ⟨?_, ?_, ?_⟩
  · intro res evs h
    rw [heq] at h
    cases hloop : spliceLoop wb (content.drop offset) (content.length - offset) 0
        (min defaultSocketBufferSize (content.length - offset)) 0 fuel with
    | none => rw [hloop] at h; simp at h
    | some r =>
      rw [hloop] at h
      cases r with
      | success evs2 =>
        simp only [Option.some.injEq, Prod.mk.injEq] at h
        rw [← h.2]
        exact ⟨rfl, List.getLast?_concat _⟩
      | failure wr er evs2 =>
        simp only [Option.some.injEq, Prod.mk.injEq] at h
        rw [← h.2]
        exact ⟨rfl, List.getLast?_concat _⟩
  · intro hwb hfuel
    have hdlen : (content.drop offset).length = content.length - offset :=
      List.length_drop offset content
    have hloop := spliceLoop_success_full wb (content.drop offset) hwb fuel 0
      (min defaultSocketBufferSize ((content.drop offset).length)) 0
      (by omega) (by rw [Nat.zero_add]) (by omega)
    obtain ⟨evs, hl, hcat, hle, hlast⟩ := hloop
    refine ⟨evs, ?_, by simpa using hcat, hle, hlast⟩
    rw [heq]
    rw [hdlen] at hl
    rw [hl]
  · intro w e evs h
    rw [heq] at h
    cases hloop : spliceLoop wb (content.drop offset) (content.length - offset) 0
        (min defaultSocketBufferSize (content.length - offset)) 0 fuel with
    | none => rw [hloop] at h; simp at h
    | some r =>
      rw [hloop] at h
      cases r with
      | success evs2 =>
        simp only [Option.some.injEq, Prod.mk.injEq] at h
        exact absurd h.1.2.1.symm (Option.some_ne_none e)
      | failure wr er evs2 =>
        simp only [Option.some.injEq, Prod.mk.injEq] at h
        obtain ⟨⟨hw1, hw2, _⟩, hevs⟩ := h
        have hwr := spliceLoop_failure_written wb (content.drop offset)
          (content.length - offset) fuel 0
          (min defaultSocketBufferSize (content.length - offset)) 0 wr er evs2 hloop
        rw [← hevs]
        have hsum : sumReported ((SpEvent.mmapEv 0 content.length PROT_READ
            MAP_SHARED :: evs2) ++ [SpEvent.munmapEv]) = sumReported evs2 := by
          rw [List.cons_append,
            show ∀ rest, sumReported (SpEvent.mmapEv 0 content.length
              PROT_READ MAP_SHARED :: rest) = sumReported rest from fun _ => rfl,
            sumReported_append,
            show sumReported [SpEvent.munmapEv] = 0 from rfl, Nat.add_zero]
        rw [hsum, ← hw1, hwr]
        simp

/-- C5, witness: the mmap-splice statement at the three-byte file
`[1, 2, 3]` seeked to offset 1 — (a) trace shape on a failing write
behavior, (b) the full-write success outcome, (c) the failure accounting
on the write behavior that accepts nothing and fails. -/
theorem c5_mmap_splice_witness :
    (([SpEvent.mmapEv 0 3 PROT_READ MAP_SHARED, SpEvent.writeEv [2, 3] 0,
        SpEvent.munmapEv] : List SpEvent).head? =
      some (SpEvent.mmapEv 0 3 PROT_READ MAP_SHARED) ∧
     ([SpEvent.mmapEv 0 3 PROT_READ MAP_SHARED, SpEvent.writeEv [2, 3] 0,
        SpEvent.munmapEv] : List SpEvent).getLast? =
      some SpEvent.munmapEv) ∧
    (∃ evs,
      ihashSplice (okFile [1, 2, 3] 1) (fun _ c => (c.length, none)) (-1) 10 =
        some ((((3 : Int)) - ((1 : Int)), none, true),
          (SpEvent.mmapEv 0 3 PROT_READ MAP_SHARED :: evs)
            ++ [SpEvent.munmapEv]) ∧
      chunksConcat evs = [2, 3] ∧
      (∀ c n, SpEvent.writeEv c n ∈ evs →
        c.length ≤ defaultSocketBufferSize) ∧
      (∀ c n, SpEvent.writeEv c n ∈ evs.dropLast →
        c.length = defaultSocketBufferSize)) ∧
    ((0 : Int) = ((sumReported [SpEvent.mmapEv 0 3 PROT_READ MAP_SHARED,
      SpEvent.writeEv [2, 3] 0, SpEvent.munmapEv] : Nat) : Int)) :=
  ⟨(c5_mmap_splice [1, 2, 3] 1 (fun _ _ => (0, some 7)) 10 (by decide)).1
      (0, some 7, true)
      [SpEvent.mmapEv 0 3 PROT_READ MAP_SHARED, SpEvent.writeEv [2, 3] 0,
        SpEvent.munmapEv] (by decide),
   (c5_mmap_splice [1, 2, 3] 1 (fun _ c => (c.length, none)) 10
      (by decide)).2.1 (fun _ _ => rfl) (by decide),
   (c5_mmap_splice [1, 2, 3] 1 (fun _ _ => (0, some 7)) 10 (by decide)).2.2
      0 7
      [SpEvent.mmapEv 0 3 PROT_READ MAP_SHARED, SpEvent.writeEv [2, 3] 0,
        SpEvent.munmapEv] (by decide)⟩

end Alg

